import Mathlib

/-!
Shallow embedding of `src/components/DictionaryApp.tsx` from the
`dictionary_app` repository (a single React component implementing a
dictionary lookup widget), together with theorems settling the spec claims.

The component state is the four `useState` hooks (`word`, `result`,
`loading`, `error`).  The async `searchWord` handler is embedded as the
ordered list of primitive effects (state setters and the outbound fetch)
it performs for a given fetch outcome; the final state is the left fold of
those effects over the starting state.  JavaScript truthiness on strings
(`""` is falsy) and on possibly-undefined fields is made explicit.
-/

set_option autoImplicit false

namespace DictionaryApp

/-- Source `interface Definition { definition: string; example?: string }`.
The optional `example` field is `exampleStr` here (`example` is reserved). -/
structure Definition where
  definition : String
  exampleStr : Option String
deriving DecidableEq, Repr

/-- Source `interface Meaning { partOfSpeech: string; definitions: Definition[] }`. -/
structure Meaning where
  partOfSpeech : String
  definitions : List Definition
deriving DecidableEq, Repr

/-- Source `interface Phonetic { text?: string; audio?: string }`. -/
structure Phonetic where
  text : Option String
  audio : Option String
deriving DecidableEq, Repr

/-- Source `interface DictionaryResult { word, phonetics, meanings }`. -/
structure DictionaryResult where
  word : String
  phonetics : List Phonetic
  meanings : List Meaning
deriving DecidableEq, Repr

/-- The four `useState` hooks of the component:
`word`, `result` (null modelled as `none`), `loading`, `error`. -/
structure AppState where
  word : String
  result : Option DictionaryResult
  loading : Bool
  error : String
deriving DecidableEq, Repr

/-- Initial hook values: `useState("")`, `useState(null)`,
`useState(false)`, `useState("")`. -/
def initState : AppState :=
  { word := "", result := none, loading := false, error := "" }

/-- JavaScript `String.prototype.trim` whitespace (the WhiteSpace and
LineTerminator productions; the ASCII part plus the common Unicode ones). -/
def isJsWhitespace (c : Char) : Bool :=
  c = ' ' || c = '\t' || c = '\n' || c = '\r' || c = '\x0b' || c = '\x0c'
    || c = '\u00A0' || c = '\u2028' || c = '\u2029' || c = '\uFEFF'

/-- JavaScript `word.trim()`. -/
def tsTrim (s : String) : String :=
  String.mk (((s.data.dropWhile isJsWhitespace).reverse.dropWhile
    isJsWhitespace).reverse)

/-- The fixed localized error message set in the `catch` branch. -/
def errMsg : String := "ไม่พบคำนี้ในพจนานุกรม กรุณาลองคำอื่น"

/-- The request URL built at line 38. -/
def apiUrl (w : String) : String :=
  "https://api.dictionaryapi.dev/api/v2/entries/en/" ++ tsTrim w

/-- Outcome of `await res.json()`: either the parse throws, or it yields
the response array of dictionary entries. -/
inductive JsonBody where
  | parseError
  | entries (data : List DictionaryResult)
deriving DecidableEq, Repr

/-- Outcome of `await fetch(...)`: either the fetch itself rejects
(network error), or an HTTP response with a status code and a body. -/
inductive FetchResult where
  | netError
  | response (status : Nat) (body : JsonBody)
deriving DecidableEq, Repr

/-- Predicate `Response.ok` per the Fetch standard: status in the range 200-299. -/
def resOk (status : Nat) : Bool :=
  200 ≤ status && status ≤ 299

/-- The fetch outcomes that land in the `catch` branch of `searchWord`:
a rejected fetch, a thrown JSON parse, or `!res.ok` (line 41 throws). -/
def isFailureOutcome : FetchResult → Prop
  | .netError => True
  | .response _ .parseError => True
  | .response status (.entries _) => resOk status = false

/-- Primitive effects performed by `searchWord`: the three state setters
and the outbound network request. -/
inductive Action where
  | setLoading (b : Bool)
  | setError (msg : String)
  | setResult (r : Option DictionaryResult)
  | fetchRequest (url : String)
deriving DecidableEq, Repr

/-- Applying one effect to the component state (the request itself does
not change the hooks). -/
def applyAction (s : AppState) : Action → AppState
  | .setLoading b => { s with loading := b }
  | .setError m => { s with error := m }
  | .setResult r => { s with result := r }
  | .fetchRequest _ => s

/-- Folding a list of effects over a state. -/
def runActions (s : AppState) (as : List Action) : AppState :=
  as.foldl applyAction s

/-- The ordered effect trace of one `searchWord()` invocation, given the
word in the input box and the outcome of the fetch.  Lines 31-49 of the
source: the guard `if (!word.trim()) return;` yields the empty trace;
otherwise `setLoading(true); setError(""); setResult(null);` precede the
fetch, the `try` body sets `setResult(data[0])` on an ok response
(`data[0]` of an empty array is `undefined`, i.e. `none`), every failure
is caught and sets the fixed message, and `finally` runs
`setLoading(false)` last. -/
def searchWordActions (w : String) (fr : FetchResult) : List Action :=
  if tsTrim w = "" then []
  else
    [.setLoading true, .setError "", .setResult none,
      .fetchRequest (apiUrl w)] ++
    (match fr with
      | .netError => [.setError errMsg]
      | .response status body =>
        if resOk status then
          match body with
          | .parseError => [.setError errMsg]
          | .entries data => [.setResult data.head?]
        else [.setError errMsg]) ++
    [.setLoading false]

/-- The component state after one `searchWord()` invocation settles. -/
def searchWord (s : AppState) (fr : FetchResult) : AppState :=
  runActions s (searchWordActions s.word fr)

/-- All intermediate states of one effect trace, the starting state
included. -/
def statesOf (s : AppState) (as : List Action) : List AppState :=
  as.scanl applyAction s

/-- The JSX renders the error card under `{error && ...}` (line 152):
string truthiness. -/
def errorShown (s : AppState) : Bool :=
  s.error ≠ ""

/-- The JSX renders the result card under `{result && ...}` (line 167):
`null`/`undefined` are falsy. -/
def resultShown (s : AppState) : Bool :=
  s.result.isSome

/-- Line 219: `meaning.definitions.slice(0, 3)` — the definitions a
meaning card renders. -/
def renderedDefs (m : Meaning) : List Definition :=
  m.definitions.take 3

/-- Lines 229-240: the example block renders under `{def.example && ...}`
(truthiness: absent or empty string renders nothing) and shows the example
wrapped in double quotes (line 236). -/
def renderedExample (d : Definition) : Option String :=
  match d.exampleStr with
  | none => none
  | some e => if e = "" then none else some ("\"" ++ e ++ "\"")

/-- The predicate of `result.phonetics.find(p => p.audio)` (lines 52 and
185): `p.audio` is truthy, i.e. present and non-empty. -/
def hasAudio (p : Phonetic) : Bool :=
  match p.audio with
  | none => false
  | some a => a ≠ ""

/-- Line 185: the audio-play button renders under
`{result.phonetics.find(p => p.audio) && ...}`. -/
def audioButtonShown (r : DictionaryResult) : Bool :=
  (r.phonetics.find? hasAudio).isSome

/-- Lines 51-59, `playAudio`: the URL actually handed to `new Audio` and
played, or `none` when the `if (audioUrl)` guard fails (no matching
phonetic entry, or — vacuously here — an empty URL). -/
def playedUrl (r? : Option DictionaryResult) : Option String :=
  match (r?.map DictionaryResult.phonetics).getD [] |>.find? hasAudio with
  | none => none
  | some p =>
    match p.audio with
    | none => none
    | some u => if u = "" then none else some u

/-- Lines 68-77: the `colors` object literal of `getPartOfSpeechColor`,
in source order. -/
def posColors : List (String × String) :=
  [("noun", "bg-blue-50 text-blue-700 border-blue-200"),
   ("verb", "bg-green-50 text-green-700 border-green-200"),
   ("adjective", "bg-purple-50 text-purple-700 border-purple-200"),
   ("adverb", "bg-orange-50 text-orange-700 border-orange-200"),
   ("preposition", "bg-pink-50 text-pink-700 border-pink-200"),
   ("pronoun", "bg-indigo-50 text-indigo-700 border-indigo-200"),
   ("conjunction", "bg-teal-50 text-teal-700 border-teal-200"),
   ("interjection", "bg-yellow-50 text-yellow-700 border-yellow-200")]

/-- The `|| "bg-gray-..."` fallback of line 78. -/
def defaultColor : String := "bg-gray-50 text-gray-700 border-gray-200"

/-- The value a JavaScript property read on the `colors` object literal
can produce: an own string property, a property inherited from
`Object.prototype` (a function or object, named by its key), or
`undefined` when the key is on neither. -/
inductive JsValue where
  | str (s : String)
  | inherited (name : String)
  | jsUndefined
deriving DecidableEq, Repr

/-- The property keys of `Object.prototype`, which a bracket read on a
plain object literal consults after the own properties: the main-spec
methods and the `__proto__` accessor, plus the Annex B legacy accessors
present in browsers.  Every one of their values (a built-in function, or
`Object.prototype` itself for `__proto__`) is truthy. -/
def objectProtoKeys : List String :=
  ["constructor", "hasOwnProperty", "isPrototypeOf", "propertyIsEnumerable",
   "toLocaleString", "toString", "valueOf", "__proto__",
   "__defineGetter__", "__defineSetter__", "__lookupGetter__",
   "__lookupSetter__"]

/-- JavaScript truthiness of such a value: a string is truthy iff
non-empty, an inherited function/object is truthy, `undefined` is falsy. -/
def jsTruthy : JsValue → Bool
  | .str s => s ≠ ""
  | .inherited _ => true
  | .jsUndefined => false

/-- The bracket read `colors[key]`: an own property of the literal first,
then the prototype chain (`Object.prototype`), else `undefined`. -/
def bracketLookup (key : String) : JsValue :=
  match posColors.find? (fun kv => kv.1 == key) with
  | some kv => .str kv.2
  | none => if key ∈ objectProtoKeys then .inherited key else .jsUndefined

/-- Line 78: `colors[pos.toLowerCase()] || default`.  The recognised tags
are ASCII, where `String.toLower` agrees with JS `toLowerCase`; the `||`
falls through to the default only when the bracket read yields a falsy
value — and an inherited `Object.prototype` member is truthy. -/
def getPartOfSpeechColor (pos : String) : JsValue :=
  if jsTruthy (bracketLookup pos.toLower) then bracketLookup pos.toLower
  else JsValue.str defaultColor

/-! ### UI event system

For the temporal claim the component is closed under its event handlers:
the text input (lines 107-115, `disabled={loading}`, `onChange`,
`onKeyPress` firing `searchWord` on Enter) and the search button (lines
116-129, `disabled={loading || !word.trim()}`, `onClick={searchWord}`).
A disabled control fires no handler.  The system state adds the number of
outstanding fetches; an invocation's synchronous prefix (the three setters
and issuing the fetch) runs atomically in its event-loop task, and a
`settle` event delivers the outcome of an outstanding fetch. -/

structure UISystem where
  app : AppState
  inFlight : Nat
  fetchCount : Nat
deriving DecidableEq, Repr

/-- The system before any event: initial hooks, no request issued. -/
def initSystem : UISystem :=
  { app := initState, inFlight := 0, fetchCount := 0 }

/-- User and network events the rendered component can receive. -/
inductive UIEvent where
  | typeWord (w : String)
  | click
  | enterKey
  | settle (fr : FetchResult)
deriving DecidableEq, Repr

/-- The synchronous prefix of `searchWord` (lines 32-40): guard on the
trimmed word, set loading/clear error and result, issue the fetch. -/
def startLookup (u : UISystem) : UISystem :=
  if tsTrim u.app.word = "" then u
  else
    { app := { u.app with loading := true, error := "", result := none },
      inFlight := u.inFlight + 1,
      fetchCount := u.fetchCount + 1 }

/-- The resumption of `searchWord` after its fetch settles (lines 41-48):
the `try` tail, `catch`, and `finally`. -/
def finishLookup (u : UISystem) (fr : FetchResult) : UISystem :=
  let app' :=
    match fr with
    | .netError => { u.app with error := errMsg }
    | .response status body =>
      if resOk status then
        match body with
        | .parseError => { u.app with error := errMsg }
        | .entries data => { u.app with result := data.head? }
      else { u.app with error := errMsg }
  { u with app := { app' with loading := false },
           inFlight := u.inFlight - 1 }

/-- One event step.  `none` means the event cannot occur in this state:
a disabled control fires no handler, and nothing can settle when no fetch
is outstanding. -/
def stepEvent (u : UISystem) : UIEvent → Option UISystem
  | .typeWord w =>
    if u.app.loading then none
    else some { u with app := { u.app with word := w } }
  | .click =>
    if u.app.loading = true ∨ tsTrim u.app.word = "" then none
    else some (startLookup u)
  | .enterKey =>
    if u.app.loading then none
    else some (startLookup u)
  | .settle fr =>
    if u.inFlight = 0 then none
    else some (finishLookup u fr)

/-- Running a list of events; an impossible event is a no-op (the user
cannot operate a disabled control). -/
def runEvents (u : UISystem) (evs : List UIEvent) : UISystem :=
  evs.foldl (fun v e => (stepEvent v e).getD v) u

/-- Recognises the `setLoading(false)` effect (used to count how often the
loading flag is cleared in a trace). -/
def isSetLoadingFalse : Action → Bool
  | .setLoading b => !b
  | .setError _ => false
  | .setResult _ => false
  | .fetchRequest _ => false

/-- At most one of the error message and the result is populated. -/
def exclusive (s : AppState) : Prop :=
  s.error = "" ∨ s.result = none

/-- Sequential sessions: each element is the word typed into the box and
the outcome its fetch settles with; each invocation settles before the
next begins. -/
def runSearches (s : AppState) : List (String × FetchResult) → AppState
  | [] => s
  | (w, fr) :: rest => runSearches (searchWord { s with word := w } fr) rest

/-- Every intermediate component state of such a sequential session. -/
def traceStates (s : AppState) : List (String × FetchResult) → List AppState
  | [] => [s]
  | (w, fr) :: rest =>
    statesOf { s with word := w } (searchWordActions w fr) ++
    traceStates (searchWord { s with word := w } fr) rest

/-! ### Theorems -/

/-- C3: an input whose trimmed form is empty produces the empty effect
trace — no setter runs and no fetch is issued — and the state is
unchanged. -/
theorem claim_c3 (s : AppState) (fr : FetchResult) (h : tsTrim s.word = "") :
    searchWordActions s.word fr = [] ∧ searchWord s fr = s := by
  refine ⟨?_, ?_⟩ <;> simp [searchWord, runActions, searchWordActions, h]

/-- C3 witness: a whitespace-only input is a no-op. -/
theorem claim_c3_witness :
    searchWordActions "  " FetchResult.netError = [] ∧
    searchWord { initState with word := "  " } FetchResult.netError =
      { initState with word := "  " } :=
  claim_c3 { initState with word := "  " } FetchResult.netError (by decide)

/-- C1: every failing outcome (non-2xx status, rejected fetch, or JSON
parse throw) leaves the fixed localized message as the error — the same
constant for every status, so no detail of the cause is surfaced — with
the previous result cleared and loading off. -/
theorem claim_c1 (s : AppState) (fr : FetchResult)
    (hw : tsTrim s.word ≠ "") (hf : isFailureOutcome fr) :
    (searchWord s fr).error = errMsg ∧ (searchWord s fr).result = none ∧
    (searchWord s fr).loading = false := by
  rcases fr with _ | ⟨st, body⟩
  · simp [searchWord, runActions, searchWordActions, hw, applyAction]
  · rcases body with _ | data
    · rcases hok : resOk st <;>
        simp [searchWord, runActions, searchWordActions, hw, hok, applyAction]
    · have hok : resOk st = false := hf
      simp [searchWord, runActions, searchWordActions, hw, hok, applyAction]

/-- C1 witness: a 404 on a previously successful state clears the result
and shows only the fixed message. -/
theorem claim_c1_witness :
    (searchWord
        { word := "zzzxyq", result := some ⟨"hello", [], []⟩,
          loading := false, error := "" }
        (FetchResult.response 404 (JsonBody.entries []))).error = errMsg ∧
    (searchWord
        { word := "zzzxyq", result := some ⟨"hello", [], []⟩,
          loading := false, error := "" }
        (FetchResult.response 404 (JsonBody.entries []))).result = none ∧
    (searchWord
        { word := "zzzxyq", result := some ⟨"hello", [], []⟩,
          loading := false, error := "" }
        (FetchResult.response 404 (JsonBody.entries []))).loading = false :=
  claim_c1 _ _ (by decide) (by show resOk 404 = false; decide)

/-- C2: for a non-empty trimmed input the effect trace starts by setting
loading to true (index 0, before the fetch at index 3), ends by setting it
to false, and contains exactly one `setLoading false` — in every outcome. -/
theorem claim_c2 (w : String) (fr : FetchResult) (hw : tsTrim w ≠ "") :
    (searchWordActions w fr).head? = some (Action.setLoading true) ∧
    (searchWordActions w fr)[3]? = some (Action.fetchRequest (apiUrl w)) ∧
    (searchWordActions w fr).getLast? = some (Action.setLoading false) ∧
    (searchWordActions w fr).countP isSetLoadingFalse = 1 := by
  rcases fr with _ | ⟨st, body⟩
  · simp [searchWordActions, hw, isSetLoadingFalse,
      List.countP_cons, List.countP_nil]
  · rcases body with _ | data <;> rcases hok : resOk st <;>
      simp [searchWordActions, hw, hok, isSetLoadingFalse,
        List.countP_cons, List.countP_nil]

/-- C2 witness: the trace shape at a concrete input and outcome. -/
theorem claim_c2_witness :
    (searchWordActions "hello" FetchResult.netError).head? =
      some (Action.setLoading true) ∧
    (searchWordActions "hello" FetchResult.netError)[3]? =
      some (Action.fetchRequest (apiUrl "hello")) ∧
    (searchWordActions "hello" FetchResult.netError).getLast? =
      some (Action.setLoading false) ∧
    (searchWordActions "hello" FetchResult.netError).countP
      isSetLoadingFalse = 1 :=
  claim_c2 "hello" FetchResult.netError (by decide)

/-- C7: a 2xx response stores exactly the head of the parsed array (all
later elements are discarded), sets no error, and when the array is empty
the result is absent while the lookup still counts as success, so neither
the result card nor the error card renders. -/
theorem claim_c7 (s : AppState) (status : Nat) (data : List DictionaryResult)
    (hw : tsTrim s.word ≠ "") (hok : resOk status = true) :
    (searchWord s (.response status (.entries data))).result = data.head? ∧
    (searchWord s (.response status (.entries data))).error = "" ∧
    (searchWord s (.response status (.entries data))).loading = false ∧
    (data = [] →
      resultShown (searchWord s (.response status (.entries data))) = false ∧
      errorShown (searchWord s (.response status (.entries data))) = false) := by
  refine ⟨?_, ?_, ?_, ?_⟩ <;>
    simp [searchWord, runActions, searchWordActions, hw, hok, applyAction,
      resultShown, errorShown]

/-- C7 witness: a 200 with an empty array yields no result and no error. -/
theorem claim_c7_witness :
    (searchWord { initState with word := "hello" }
        (.response 200 (.entries []))).result = List.head? [] ∧
    (searchWord { initState with word := "hello" }
        (.response 200 (.entries []))).error = "" ∧
    (searchWord { initState with word := "hello" }
        (.response 200 (.entries []))).loading = false ∧
    resultShown (searchWord { initState with word := "hello" }
      (.response 200 (.entries []))) = false ∧
    errorShown (searchWord { initState with word := "hello" }
      (.response 200 (.entries []))) = false :=
  have h := claim_c7 { initState with word := "hello" } 200 []
    (by decide) (by decide)
  ⟨h.1, h.2.1, h.2.2.1, (h.2.2.2 rfl).1, (h.2.2.2 rfl).2⟩

/-- C9: repeating the identical query with the identical successful
response is idempotent — the settled state after the second invocation
equals the one after the first — and the stored result is exactly the
response head, independently of whatever result was held before (replaced
wholesale, never merged). -/
theorem claim_c9 (s : AppState) (status : Nat) (data : List DictionaryResult)
    (hw : tsTrim s.word ≠ "") (hok : resOk status = true) :
    searchWord (searchWord s (.response status (.entries data)))
        (.response status (.entries data)) =
      searchWord s (.response status (.entries data)) ∧
    (searchWord s (.response status (.entries data))).result = data.head? := by
  have h1 : searchWord s (.response status (.entries data)) =
      { s with loading := false, error := "", result := data.head? } := by
    simp [searchWord, runActions, searchWordActions, hw, hok, applyAction]
  refine ⟨?_, by rw [h1]⟩
  rw [h1]
  simp [searchWord, runActions, searchWordActions, hw, hok, applyAction]

/-- C9 witness: idempotence at a concrete query and response. -/
theorem claim_c9_witness :
    searchWord (searchWord { initState with word := "hello" }
        (.response 200 (.entries [⟨"hello", [], []⟩])))
        (.response 200 (.entries [⟨"hello", [], []⟩])) =
      searchWord { initState with word := "hello" }
        (.response 200 (.entries [⟨"hello", [], []⟩])) ∧
    (searchWord { initState with word := "hello" }
        (.response 200 (.entries [⟨"hello", [], []⟩]))).result =
      List.head? [⟨"hello", [], []⟩] :=
  claim_c9 { initState with word := "hello" } 200 [⟨"hello", [], []⟩]
    (by decide) (by decide)

/-- C5: each meaning card renders exactly `min 3 M` of its `M`
definitions, they are the first ones in their original order, and a
rendered definition shows an example — wrapped in double quotes — only
when the definition carries a (non-empty) example. -/
theorem claim_c5 (m : Meaning) :
    (renderedDefs m).length = min 3 m.definitions.length ∧
    (∀ i, i < 3 → (renderedDefs m)[i]? = m.definitions[i]?) ∧
    (∀ d, d ∈ renderedDefs m → ∀ q, renderedExample d = some q →
      ∃ e, d.exampleStr = some e ∧ e ≠ "" ∧ q = "\"" ++ e ++ "\"") := by
  refine ⟨by simp [renderedDefs], ?_, ?_⟩
  · intro i hi
    simp [renderedDefs, List.getElem?_take, hi]
  · intro d _ q hq
    rcases hd : d.exampleStr with _ | e
    · simp [renderedExample, hd] at hq
    · rcases he : decide (e = "") with _ | _
      · simp at he
        refine ⟨e, rfl, he, ?_⟩
        simp [renderedExample, hd, he] at hq
        exact hq.symm
      · simp at he
        simp [renderedExample, hd, he] at hq

/-- C5 witness: a meaning with four definitions renders its first three;
the quoted example surfaces only where present. -/
theorem claim_c5_witness :
    (renderedDefs ⟨"noun", [⟨"a", some "x"⟩, ⟨"b", none⟩, ⟨"c", none⟩,
        ⟨"d", none⟩]⟩).length =
      min 3 (List.length [⟨"a", some "x"⟩, ⟨"b", none⟩, ⟨"c", none⟩,
        (⟨"d", none⟩ : Definition)]) ∧
    (renderedDefs ⟨"noun", [⟨"a", some "x"⟩, ⟨"b", none⟩, ⟨"c", none⟩,
        ⟨"d", none⟩]⟩)[1]? =
      [⟨"a", some "x"⟩, ⟨"b", none⟩, ⟨"c", none⟩,
        (⟨"d", none⟩ : Definition)][1]? ∧
    ∃ e, (⟨"a", some "x"⟩ : Definition).exampleStr = some e ∧ e ≠ "" ∧
      "\"x\"" = "\"" ++ e ++ "\"" :=
  have h := claim_c5 ⟨"noun", [⟨"a", some "x"⟩, ⟨"b", none⟩, ⟨"c", none⟩,
    ⟨"d", none⟩]⟩
  ⟨h.1, h.2.1 1 (by decide),
    h.2.2 ⟨"a", some "x"⟩ (by decide) "\"x\"" (by decide)⟩

/-- Helper: `find?` returns the first element satisfying the predicate: splitting
the list at that element characterises the result. -/
theorem find?_of_first {α : Type} (p : α → Bool) (l₁ l₂ : List α) (x : α)
    (h₁ : ∀ q ∈ l₁, p q = false) (hx : p x = true) :
    (l₁ ++ x :: l₂).find? p = some x := by
  induction l₁ with
  | nil => simp [List.find?, hx]
  | cons a t ih =>
    have ha : p a = false := h₁ a (by simp)
    simp only [List.cons_append, List.find?, ha]
    exact ih fun q hq => h₁ q (by simp [hq])

/-- C6: the audio-play control renders exactly when some phonetic entry
carries a truthy (present, non-empty) audio field; when none does,
playback is a no-op; and playback uses the audio of the first such entry. -/
theorem claim_c6 (r : DictionaryResult) :
    (audioButtonShown r = true ↔ ∃ p ∈ r.phonetics, hasAudio p = true) ∧
    (audioButtonShown r = false → playedUrl (some r) = none) ∧
    (∀ l₁ p l₂, r.phonetics = l₁ ++ p :: l₂ →
      (∀ q ∈ l₁, hasAudio q = false) → hasAudio p = true →
      playedUrl (some r) = p.audio ∧ playedUrl (some r) ≠ none) := by
  refine ⟨?_, ?_, ?_⟩
  · simp [audioButtonShown]
  · intro h
    have hn : r.phonetics.find? hasAudio = none := by
      simpa [audioButtonShown, Option.isSome_iff_exists,
        List.find?_eq_none] using h
    simp [playedUrl, hn]
  · intro l₁ p l₂ hsplit hall hp
    have hfind : r.phonetics.find? hasAudio = some p := by
      rw [hsplit]; exact find?_of_first hasAudio l₁ l₂ p hall hp
    rcases ha : p.audio with _ | u
    · rw [hasAudio, ha] at hp; simp at hp
    · have hu : u ≠ "" := by rw [hasAudio, ha] at hp; simpa using hp
      constructor
      · simp [playedUrl, hfind, ha, hu]
      · simp [playedUrl, hfind, ha, hu]

/-- C6 witness: with the audio on the second phonetic entry, the button
shows and playback picks exactly that entry's URL. -/
theorem claim_c6_witness :
    audioButtonShown ⟨"hello", [⟨some "/h/", none⟩,
      ⟨none, some "https://x/hello.mp3"⟩], []⟩ = true ∧
    playedUrl (some ⟨"hello", [⟨some "/h/", none⟩,
        ⟨none, some "https://x/hello.mp3"⟩], []⟩) =
      (⟨none, some "https://x/hello.mp3"⟩ : Phonetic).audio ∧
    playedUrl (some ⟨"hello", [⟨some "/h/", none⟩,
        ⟨none, some "https://x/hello.mp3"⟩], []⟩) ≠ none :=
  have h := claim_c6 ⟨"hello", [⟨some "/h/", none⟩,
    ⟨none, some "https://x/hello.mp3"⟩], []⟩
  have h3 := h.2.2 [⟨some "/h/", none⟩] ⟨none, some "https://x/hello.mp3"⟩ []
    (by decide) (by decide) (by decide)
  ⟨h.1.mpr ⟨⟨none, some "https://x/hello.mp3"⟩, by decide, by decide⟩,
    h3.1, h3.2⟩

/-- Mutual exclusion of error and result is preserved by every state of
one invocation's effect trace. -/
theorem exclusive_statesOf (s : AppState) (w : String) (fr : FetchResult)
    (h : exclusive s) :
    ∀ t ∈ statesOf s (searchWordActions w fr), exclusive t := by
  intro t ht
  by_cases hw : tsTrim w = ""
  · simp [statesOf, searchWordActions, hw, List.scanl] at ht
    subst ht; exact h
  · rcases fr with _ | ⟨st, body⟩
    · simp [statesOf, searchWordActions, hw, List.scanl, applyAction] at ht
      rcases ht with rfl | rfl | rfl | rfl | rfl | rfl | rfl <;>
        first
          | exact h
          | exact Or.inl rfl
          | exact Or.inr rfl
    · rcases body with _ | data <;> rcases hok : resOk st <;>
        simp [statesOf, searchWordActions, hw, hok, List.scanl,
          applyAction] at ht <;>
        rcases ht with rfl | rfl | rfl | rfl | rfl | rfl | rfl <;>
        first
          | exact h
          | exact Or.inl rfl
          | exact Or.inr rfl

/-- Mutual exclusion of error and result is preserved by a settled
invocation. -/
theorem exclusive_searchWord (s : AppState) (fr : FetchResult)
    (h : exclusive s) : exclusive (searchWord s fr) := by
  by_cases hw : tsTrim s.word = ""
  · simpa [searchWord, runActions, searchWordActions, hw] using h
  · rcases fr with _ | ⟨st, body⟩
    · simp [searchWord, runActions, searchWordActions, hw, applyAction,
        exclusive]
    · rcases body with _ | data <;> rcases hok : resOk st <;>
        simp [searchWord, runActions, searchWordActions, hw, hok,
          applyAction, exclusive]

/-- Mutual exclusion of error and result holds in every intermediate
state of a sequential session. -/
theorem exclusive_traceStates (invs : List (String × FetchResult)) :
    ∀ s : AppState, exclusive s → ∀ t ∈ traceStates s invs, exclusive t := by
  induction invs with
  | nil =>
    intro s h t ht
    simp [traceStates] at ht
    subst ht; exact h
  | cons p rest ih =>
    intro s h t ht
    rcases p with ⟨w, fr⟩
    simp only [traceStates, List.mem_append] at ht
    rcases ht with ht | ht
    · exact exclusive_statesOf { s with word := w } w fr h t ht
    · exact ih _ (exclusive_searchWord { s with word := w } fr h) t ht

/-- C4: in every state reachable through any sequential session of
settling invocations — every intermediate state of every trace included —
at most one of the error message and the result is populated; and each
non-empty invocation has, right after its third setter and before its
fetch settles, both the prior error and the prior result cleared. -/
theorem claim_c4 (invs : List (String × FetchResult)) :
    (∀ t ∈ traceStates initState invs, exclusive t) ∧
    (∀ (s : AppState) (w : String) (fr : FetchResult), tsTrim w ≠ "" →
      (statesOf { s with word := w } (searchWordActions w fr))[3]? =
        some { s with
          word := w, loading := true, error := "", result := none }) := by
  refine ⟨exclusive_traceStates invs initState (Or.inl rfl), ?_⟩
  intro s w fr hw
  rcases fr with _ | ⟨st, body⟩
  · simp [statesOf, searchWordActions, hw, List.scanl, applyAction]
  · rcases body with _ | data <;> rcases hok : resOk st <;>
      simp [statesOf, searchWordActions, hw, hok, List.scanl, applyAction]

/-- C4 witness: the populated-error state of a settled failing lookup
still keeps the result clear, and a new request's trace clears both
fields at its third step. -/
theorem claim_c4_witness :
    exclusive ⟨"hello", none, true, errMsg⟩ ∧
    (statesOf { initState with word := "hi" }
        (searchWordActions "hi" FetchResult.netError))[3]? =
      some { initState with
        word := "hi", loading := true, error := "", result := none } :=
  ⟨(claim_c4 [("hello", FetchResult.netError)]).1
      ⟨"hello", none, true, errMsg⟩ (by decide),
    (claim_c4 []).2 initState "hi" FetchResult.netError (by decide)⟩

/-- The number of in-flight requests is determined by the loading flag. -/
def inFlightInv (u : UISystem) : Prop :=
  u.inFlight = if u.app.loading then 1 else 0

/-- Every UI event preserves `inFlightInv`: the disabled controls make a
new lookup impossible exactly while one is outstanding. -/
theorem inFlightInv_step (u : UISystem) (e : UIEvent) (h : inFlightInv u) :
    inFlightInv ((stepEvent u e).getD u) := by
  rcases e with w | _ | _ | fr
  · by_cases hl : u.app.loading <;> simp [stepEvent, hl] <;>
      simpa [inFlightInv, hl] using h
  · by_cases hg : u.app.loading = true ∨ tsTrim u.app.word = ""
    · simp [stepEvent, hg]; exact h
    · push_neg at hg
      simp [stepEvent, hg.1, hg.2, startLookup, inFlightInv]
      simpa [inFlightInv, hg.1] using h
  · by_cases hl : u.app.loading
    · simp [stepEvent, hl]; exact h
    · by_cases hw : tsTrim u.app.word = ""
      · simp [stepEvent, hl, startLookup, hw]
        simpa [inFlightInv] using h
      · simp [stepEvent, hl, startLookup, hw, inFlightInv]
        simpa [inFlightInv, hl] using h
  · by_cases hz : u.inFlight = 0
    · simp [stepEvent, hz]; exact h
    · have hl : u.app.loading = true := by
        rcases hb : u.app.loading
        · rw [inFlightInv, hb] at h
          simp at h
          exact absurd h hz
        · rfl
      rcases fr with _ | ⟨st, body⟩
      · simp [stepEvent, hz, finishLookup, inFlightInv]
        simp [inFlightInv, hl] at h; omega
      · rcases body with _ | data <;> rcases hok : resOk st <;>
          simp [stepEvent, hz, finishLookup, hok, inFlightInv] <;>
          simp [inFlightInv, hl] at h <;> omega

/-- Invariant `inFlightInv` holds along any event run. -/
theorem inFlightInv_runEvents (evs : List UIEvent) :
    ∀ u : UISystem, inFlightInv u → inFlightInv (runEvents u evs) := by
  induction evs with
  | nil => intro u h; exact h
  | cons e t ih => intro u h; exact ih _ (inFlightInv_step u e h)

/-- C8 counterexample: no sequence of UI events ever has two requests in
flight — the input and button are disabled while loading, so the second
outbound call the claim asserts can never be issued. -/
theorem claim_c8_counterexample :
    ¬ ∃ evs : List UIEvent, 2 ≤ (runEvents initSystem evs).inFlight := by
  rintro ⟨evs, h2⟩
  have h := inFlightInv_runEvents evs initSystem rfl
  rw [inFlightInv] at h
  rw [h] at h2
  split at h2 <;> omega

/-- C8 amended: while a lookup is in flight, the loading flag disables
both the input (no Enter key, no typing) and the search button (no
click), so at most one request is ever outstanding in any run. -/
theorem claim_c8_amended :
    (∀ evs : List UIEvent, (runEvents initSystem evs).inFlight ≤ 1) ∧
    (∀ u : UISystem, u.app.loading = true →
      stepEvent u UIEvent.click = none ∧
      stepEvent u UIEvent.enterKey = none ∧
      ∀ w, stepEvent u (UIEvent.typeWord w) = none) := by
  constructor
  · intro evs
    have h := inFlightInv_runEvents evs initSystem rfl
    rw [inFlightInv] at h
    rw [h]
    split <;> omega
  · intro u hl
    refine ⟨?_, ?_, fun w => ?_⟩ <;> simp [stepEvent, hl]

/-- C8 witness: the disabled controls at a concrete loading state, and
the bound on a concrete run. -/
theorem claim_c8_witness :
    (runEvents initSystem [UIEvent.typeWord "hello",
      UIEvent.click]).inFlight ≤ 1 ∧
    stepEvent ⟨⟨"hello", none, true, ""⟩, 1, 1⟩ UIEvent.click = none ∧
    stepEvent ⟨⟨"hello", none, true, ""⟩, 1, 1⟩ UIEvent.enterKey = none ∧
    stepEvent ⟨⟨"hello", none, true, ""⟩, 1, 1⟩
      (UIEvent.typeWord "x") = none :=
  have h2 := claim_c8_amended.2 ⟨⟨"hello", none, true, ""⟩, 1, 1⟩ rfl
  ⟨claim_c8_amended.1 [UIEvent.typeWord "hello", UIEvent.click],
    h2.1, h2.2.1, h2.2.2 "x"⟩

/-- Helper: `Char.ofNat` at a scalar value below the surrogate range round-trips
through `toNat`. -/
theorem char_toNat_ofNat {n : Nat} (h : n < 55296) :
    (Char.ofNat n).toNat = n := by
  have hv : n.isValidChar := Or.inl h
  rw [Char.ofNat, dif_pos hv]
  rfl

/-- Helper: `Char.toLower` is idempotent: a lowered basic-latin letter is no
longer in the upper-case range. -/
theorem char_toLower_idem (c : Char) : c.toLower.toLower = c.toLower := by
  have hdef : ∀ d : Char, d.toLower =
      if d.toNat ≥ 65 ∧ d.toNat ≤ 90 then Char.ofNat (d.toNat + 32) else d :=
    fun _ => rfl
  rw [hdef c]
  by_cases h : c.toNat ≥ 65 ∧ c.toNat ≤ 90
  · rw [if_pos h, hdef]
    have ht : (Char.ofNat (c.toNat + 32)).toNat = c.toNat + 32 :=
      char_toNat_ofNat (by omega)
    rw [if_neg (by rw [ht]; omega)]
  · rw [if_neg h, hdef c, if_neg h]

/-- Helper: `String.toLower` is idempotent. -/
theorem string_toLower_idem (s : String) : s.toLower.toLower = s.toLower := by
  simp only [String.toLower, String.map_eq, List.map_map]
  congr 1
  exact List.map_congr_left fun c _ => char_toLower_idem c

/-- C10 counterexample: `"constructor"` is none of the eight recognised
tags, yet the bracket read finds the inherited `Object.prototype`
constructor — a truthy value — so the `||` never falls through and the
result is not the default category, refuting "every other string maps to
the single default category". -/
theorem claim_c10_counterexample :
    getPartOfSpeechColor "constructor" =
      JsValue.inherited "constructor" ∧
    getPartOfSpeechColor "constructor" ≠ JsValue.str defaultColor ∧
    "constructor" ∉ posColors.map Prod.fst := by
  have h : "constructor".toLower = "constructor" := by
    rw [String.toLower, String.map_eq]; decide
  refine ⟨?_, ?_, by decide⟩ <;> rw [getPartOfSpeechColor, h] <;> decide

/-- C10 amended: the mapping lowercases its input before lookup, so it is
case-insensitive, and any casing of the eight recognised tags maps to
that tag's category; every other string maps to the single default
category unless its lowercased form is a key inherited from
`Object.prototype` (such as `constructor` or `__proto__`), in which case
the inherited truthy value is returned instead of the default. -/
theorem claim_c10_amended (s : String) :
    getPartOfSpeechColor s = getPartOfSpeechColor s.toLower ∧
    (∀ kv ∈ posColors, s.toLower = kv.1 →
      getPartOfSpeechColor s = JsValue.str kv.2) ∧
    (s.toLower ∉ posColors.map Prod.fst → s.toLower ∉ objectProtoKeys →
      getPartOfSpeechColor s = JsValue.str defaultColor) ∧
    (s.toLower ∉ posColors.map Prod.fst → s.toLower ∈ objectProtoKeys →
      getPartOfSpeechColor s = JsValue.inherited s.toLower) := by
  have hnone : s.toLower ∉ posColors.map Prod.fst →
      posColors.find? (fun kv => kv.1 == s.toLower) = none := by
    intro hmem
    rw [List.find?_eq_none]
    intro kv hkv
    simp only [beq_iff_eq, ne_eq]
    intro heq
    exact hmem (heq ▸ List.mem_map_of_mem Prod.fst hkv)
  refine ⟨?_, ?_, ?_, ?_⟩
  · rw [getPartOfSpeechColor, getPartOfSpeechColor, string_toLower_idem]
  · intro kv hkv heq
    rw [getPartOfSpeechColor, bracketLookup, heq]
    simp only [posColors, List.mem_cons, List.not_mem_nil, or_false] at hkv
    rcases hkv with h | h | h | h | h | h | h | h <;> subst h <;> decide
  · intro hmem hproto
    rw [getPartOfSpeechColor, bracketLookup, hnone hmem, if_neg hproto]
    decide
  · intro hmem hproto
    rw [getPartOfSpeechColor, bracketLookup, hnone hmem, if_pos hproto]
    rfl

/-- C10 witness: casings of recognised tags get the tag's category, an
unrecognised tag gets the default, and a prototype-chain key gets the
inherited value. -/
theorem claim_c10_witness :
    getPartOfSpeechColor "NOUN" = getPartOfSpeechColor "noun" ∧
    getPartOfSpeechColor "Verb" =
      JsValue.str "bg-green-50 text-green-700 border-green-200" ∧
    getPartOfSpeechColor "xyz" = JsValue.str defaultColor ∧
    getPartOfSpeechColor "Constructor" = JsValue.inherited "constructor" :=
  ⟨by
    have h := (claim_c10_amended "NOUN").1
    rwa [show "NOUN".toLower = "noun" from by
      rw [String.toLower, String.map_eq]; decide] at h,
   (claim_c10_amended "Verb").2.1
     ("verb", "bg-green-50 text-green-700 border-green-200")
     (by decide) (by rw [String.toLower, String.map_eq]; decide),
   (claim_c10_amended "xyz").2.2.1
     (by rw [String.toLower, String.map_eq]; decide)
     (by rw [String.toLower, String.map_eq]; decide),
   by
    have h := (claim_c10_amended "Constructor").2.2.2
      (by rw [String.toLower, String.map_eq]; decide)
      (by rw [String.toLower, String.map_eq]; decide)
    rwa [show "Constructor".toLower = "constructor" from by
      rw [String.toLower, String.map_eq]; decide] at h⟩

end DictionaryApp
